import Mathlib

/-!
# Verification of the HF-Tracker change-detection engine

Shallow embedding of `src/hf_tracker.py` (class `HFTracker`): the snapshot
store (`_load_state` / `_save_state`), the change detector inside
`_check_user_updates`, the alert formatter (`_format_update_message`), the
scan-cycle orchestrator (`check_all_users`) and the scheduler
(`run_continuous`).  Machine-level conventions:

* Python `None`-able fields become `Option`; Python truthiness of an optional
  string (`None` and `""` are falsy) is the predicate `truthy`.
* Python dicts become association lists (`List (String × _)`); a Python
  `dict` assignment replaces the value in place for an existing key and
  appends otherwise (`stateSet`).
* Python `set` iteration is modelled in first-occurrence order of the
  underlying listing (deterministic within one process run); `uniqueIds`
  performs the corresponding de-duplication.
* Timestamps are carried as their ISO strings (the code itself stores
  `isoformat()` strings in the state and compares them only for equality,
  except for the descending sort in `_get_user_models`, where ISO strings
  compare like the underlying instants).
* I/O is made explicit: the catalog fetch result is an `Except` parameter,
  the per-model detail fetch a `String → Option RawModel` parameter, the
  clock a `now : String` parameter, and the state file a token list.
-/

namespace HFTracker

/-- A raw `ModelInfo` object as returned by the catalog client
(`huggingface_hub`): every field except the id may be missing. -/
structure RawModel where
  id : String
  author : Option String
  created_at : Option String
  updated_at : Option String
  last_modified : Option String
  sha : Option String
  tags : Option (List String)
  downloads : Option Nat
deriving DecidableEq, Repr

/-- One formatted model-info dict, as built by `_format_model_info`
(source lines 109–120) and stored in the persisted state. -/
structure ModelRecord where
  id : String
  author : Option String
  created_at : Option String
  updated_at : Option String
  last_modified : Option String
  sha : Option String
  tags : List String
  downloads : Nat
deriving DecidableEq, Repr

/-- Python truthiness of an optional string: `None` and `""` are falsy. -/
def truthy : Option String → Prop
  | none => False
  | some s => s ≠ ""

instance (o : Option String) : Decidable (truthy o) := by
  unfold truthy; cases o <;> infer_instance

/-- `_format_model_info` (source lines 109–120): extracts the eight relevant
fields; `tags` gets `getattr(model, 'tags', []) or []` (so `None` collapses
to `[]`) and `downloads` gets `getattr(model, 'downloads', 0)`. -/
def formatModelInfo (m : RawModel) : ModelRecord :=
  { id := m.id
  , author := m.author
  , created_at := m.created_at
  , updated_at := m.updated_at
  , last_modified := m.last_modified
  , sha := m.sha
  , tags := m.tags.getD []
  , downloads := m.downloads.getD 0 }

/-- The model dict of one account: artifact id → formatted record. -/
abbrev ModelDict := List (String × ModelRecord)

/-- The per-account entry written into `self.state[username]`
(source lines 192–197). -/
structure UserState where
  models : ModelDict
  last_checked : String
  model_count : Nat
deriving DecidableEq, Repr

/-- The global tracker state: account name → per-account entry. -/
abbrev TrackerState := List (String × UserState)

/-- Association-list lookup, mirroring Python `dict.get(k)`. -/
def alGet? {β : Type} : List (String × β) → String → Option β
  | [], _ => none
  | (k, v) :: rest, key => if k = key then some v else alGet? rest key

/-- Python `dict.get(k, default)`. -/
def alGetD {β : Type} (d : List (String × β)) (key : String) (dflt : β) : β :=
  (alGet? d key).getD dflt

/-- Python `dict` assignment `d[k] = v`: replace in place when the key is
present, append otherwise. -/
def stateSet : TrackerState → String → UserState → TrackerState
  | [], u, v => [(u, v)]
  | (k, w) :: rest, u, v =>
      if k = u then (u, v) :: rest else (k, w) :: stateSet rest u v

/-- The model dict returned by `current_model_dict.get(model_id, {})` when
the id were missing: an empty Python dict, whose `.get` calls all return
their defaults.  (Unreachable in practice: every id iterated comes from the
dict's own keys.) -/
def emptyRecord : ModelRecord :=
  { id := "", author := none, created_at := none, updated_at := none
  , last_modified := none, sha := none, tags := [], downloads := 0 }

/-- First-occurrence de-duplication: the key order of a Python dict built by
inserting the listing's ids left to right, and the (per-process
deterministic) iteration order we fix for the Python `set` of ids. -/
def uniqueIds : List String → List String
  | [] => []
  | i :: rest => i :: (uniqueIds rest).filter (fun j => decide (j ≠ i))

/-- The typed change events built by `_check_user_updates`: the source's
`new_model` dict, and its `model_updated` dict in its two payload shapes
(`previous_sha`/`current_sha` for a SHA change, source lines 169–178;
`previous_modified`/`current_modified` for a `last_modified` change,
source lines 181–189). -/
inductive Update where
  | new_model (user model_id : String) (model_info : ModelRecord)
  | updated_sha (user model_id : String) (previous_sha current_sha : Option String)
      (model_info : ModelRecord)
  | updated_last_modified (user model_id : String)
      (previous_modified current_modified : Option String) (model_info : ModelRecord)
deriving DecidableEq, Repr

/-- The `user` field of an update dict. -/
def Update.user : Update → String
  | .new_model u _ _ => u
  | .updated_sha u _ _ _ _ => u
  | .updated_last_modified u _ _ _ _ => u

/-- The `model_id` field of an update dict. -/
def Update.modelId : Update → String
  | .new_model _ i _ => i
  | .updated_sha _ i _ _ _ => i
  | .updated_last_modified _ i _ _ _ => i

/-- The `model_info` field of an update dict. -/
def Update.modelInfo : Update → ModelRecord
  | .new_model _ _ r => r
  | .updated_sha _ _ _ _ r => r
  | .updated_last_modified _ _ _ _ r => r

/-- Does the dict have `"type": "new_model"`? -/
def Update.isNew : Update → Bool
  | .new_model _ _ _ => true
  | _ => false

/-- Does the dict have `"type": "model_updated"`? -/
def Update.isUpdated : Update → Bool
  | .new_model _ _ _ => false
  | _ => true

/-- The per-common-id comparison of `_check_user_updates`
(source lines 159–190): the SHA branch fires only when both `.get("sha")`
values are truthy (non-`None`, non-empty) and differ; otherwise the
`last_modified` values are compared. -/
def compareRecords (username model_id : String)
    (current_info previous_info : ModelRecord) : List Update :=
  if truthy current_info.sha ∧ truthy previous_info.sha ∧
      current_info.sha ≠ previous_info.sha then
    [.updated_sha username model_id previous_info.sha current_info.sha current_info]
  else if current_info.last_modified ≠ previous_info.last_modified then
    [.updated_last_modified username model_id previous_info.last_modified
      current_info.last_modified current_info]
  else []

/-- The new-model pass of `_check_user_updates` (source lines 148–157):
one `new_model` event per id of `current_model_ids - previous_model_ids`,
in first-occurrence listing order. -/
def newModelEvents (username : String)
    (previous_models current_model_dict : ModelDict) : List Update :=
  ((uniqueIds (current_model_dict.map Prod.fst)).filter
      (fun i => decide (i ∉ previous_models.map Prod.fst))).map
    (fun i => Update.new_model username i (alGetD current_model_dict i emptyRecord))

/-- The common-id pass of `_check_user_updates` (source lines 159–190):
for each id of `current_model_ids ∩ previous_model_ids`, the events of
`compareRecords` on the two stored records. -/
def updatedEvents (username : String)
    (previous_models current_model_dict : ModelDict) : List Update :=
  ((uniqueIds (current_model_dict.map Prod.fst)).filter
      (fun i => decide (i ∈ previous_models.map Prod.fst))).flatMap
    (fun i => compareRecords username i
      (alGetD current_model_dict i emptyRecord)
      (alGetD previous_models i emptyRecord))

/-- The pure change detector of `_check_user_updates`
(source lines 148–191): new-model events first, then update events for
common ids. -/
def detectChanges (username : String)
    (previous_models current_model_dict : ModelDict) : List Update :=
  newModelEvents username previous_models current_model_dict ++
    updatedEvents username previous_models current_model_dict

/-- The sort key of `_get_user_models` (source lines 86–94): the first truthy
timestamp among `last_modified`, `updated_at`, `created_at`, else the minimal
instant (modelled as the minimal string `""`). -/
def getSortKey (m : RawModel) : String :=
  if truthy m.last_modified then m.last_modified.getD ""
  else if truthy m.updated_at then m.updated_at.getD ""
  else if truthy m.created_at then m.created_at.getD ""
  else ""

/-- Stable insertion (descending by key): a model is placed before the first
strictly smaller key, after equal keys — the order produced by Python's
stable `list.sort(key=…, reverse=True)`. -/
def insertDesc (m : RawModel) : List RawModel → List RawModel
  | [] => [m]
  | x :: rest =>
      if getSortKey x < getSortKey m then m :: x :: rest
      else x :: insertDesc m rest

/-- `models.sort(key=get_sort_key, reverse=True)` (source line 95). -/
def sortModelsDesc (models : List RawModel) : List RawModel :=
  models.foldl (fun acc m => insertDesc m acc) []

/-- `_get_user_models` (source lines 81–99): on success the listing sorted
most-recent-first, on any exception an empty list. -/
def getUserModels (fetchResult : Except Unit (List RawModel)) : List RawModel :=
  match fetchResult with
  | .ok models => sortModelsDesc models
  | .error _ => []

/-- `_check_user_updates` (source lines 122–199): fetch the listing (an
explicit `Except` parameter), resolve each model's detail record
(`detail` parameter; `none` models a failed `_get_model_info`, falling back
to the basic listing record), detect changes against the stored previous
models, and overwrite `self.state[username]` with the freshly built dict.
Returns the update list and the new state. -/
def checkUserUpdates (username : String) (state : TrackerState)
    (fetchResult : Except Unit (List RawModel))
    (detail : String → Option RawModel) (now : String) :
    List Update × TrackerState :=
  let current_models := getUserModels fetchResult
  let previous_models :=
    match alGet? state username with
    | some us => us.models
    | none => []
  let current_model_dict : ModelDict := current_models.map (fun m =>
    (m.id, match detail m.id with
           | some d => formatModelInfo d
           | none => formatModelInfo m))
  let updates := detectChanges username previous_models current_model_dict
  let newState := stateSet state username
    { models := current_model_dict
    , last_checked := now
    , model_count := (uniqueIds (current_model_dict.map Prod.fst)).length }
  (updates, newState)

/-! ## Snapshot store: the state file

The persisted JSON document is modelled as a token stream: one opening
token, one token per account entry, one closing token that occurs nowhere
else.  `json.load` succeeds exactly on a complete such stream. -/

/-- One token of the serialized state file. -/
inductive Tok where
  | openBrace
  | entry (account : String) (snapshot : UserState)
  | closeBrace
deriving DecidableEq, Repr

/-- The serialized form of a full tracker state (`json.dump(self.state, f)`,
source line 76). -/
def serializeState (st : TrackerState) : List Tok :=
  Tok.openBrace :: (st.map (fun p => Tok.entry p.1 p.2) ++ [Tok.closeBrace])

/-- Parse the entry section of a state file: a run of entries terminated by
the closing token, nothing after it. -/
def parseEntries : List Tok → Option TrackerState
  | [Tok.closeBrace] => some []
  | Tok.entry a u :: rest => (parseEntries rest).map (fun st => (a, u) :: st)
  | _ => none

/-- `json.load` on the state file: succeeds exactly on complete serialized
documents. -/
def parseState : List Tok → Option TrackerState
  | Tok.openBrace :: rest => parseEntries rest
  | _ => none

/-- `_load_state` (source lines 57–70): missing file (`none`) → empty state;
unparsable content → log and empty state; otherwise the parsed state.
Total, so no exception escapes. -/
def loadState (file : Option (List Tok)) : TrackerState :=
  match file with
  | none => []
  | some toks =>
      match parseState toks with
      | some st => st
      | none => []

/-- `_save_state` (source lines 72–79) opens the state file with mode `'w'`
(truncating it) and writes the serialization sequentially in place.  A save
interrupted after `k` tokens leaves exactly the first `k` tokens of the new
serialization on disk. -/
def fileAfterInterruptedSave (newState : TrackerState) (k : Nat) : List Tok :=
  (serializeState newState).take k

/-! ## Alert formatter -/

/-- `model_url = f"https://huggingface.co/{model_id}"` (source line 259). -/
def modelUrl (model_id : String) : String :=
  "https://huggingface.co/" ++ model_id

/-- How Python renders `dict.get("last_modified")` inside an f-string:
the string itself, or `"None"` for a null (the key is always present in a
dict built by `_format_model_info`, so the `'Unknown'` default of
`model_info.get('last_modified', 'Unknown')` is dead). -/
def pyOptStr : Option String → String
  | some s => s
  | none => "None"

/-- `", ".join(tags[:5]) if tags else "No tags"` (source line 263). -/
def tagsStr (tags : List String) : String :=
  if tags = [] then "No tags" else String.intercalate ", " (tags.take 5)

/-- Split a (reversed) digit run into groups of three for thousands
separators. -/
def chunk3 : List Char → List (List Char)
  | [] => []
  | [a] => [[a]]
  | [a, b] => [[a, b]]
  | a :: b :: c :: rest => [a, b, c] :: chunk3 rest

/-- Python's `f"{n:,}"` on a natural number: decimal digits with a comma
every three digits from the right. -/
def commaFormat (n : Nat) : String :=
  String.mk ((List.intercalate [','] (chunk3 (Nat.repr n).data.reverse)).reverse)

/-- `_format_update_message` (source lines 252–284); the strings are the
source's f-strings with the interpolations spliced in.  Both payload shapes
of a `model_updated` dict render through the same branch. -/
def formatUpdateMessage : Update → String
  | .new_model user model_id info =>
      "🆕 <b>New Model Detected!</b>" ++ "\n\n" ++
      "👤 User: <b>" ++ user ++ "</b>\n" ++
      "📦 Model: <b>" ++ model_id ++ "</b>\n" ++
      "🏷️ Tags: " ++ tagsStr info.tags ++ "\n" ++
      "📥 Downloads: " ++ commaFormat info.downloads ++ "\n" ++
      "🔗 <a href='" ++ modelUrl model_id ++ "'>View on Hugging Face</a>"
  | .updated_sha user model_id _ _ info =>
      "🔄 <b>Model Updated!</b>" ++ "\n\n" ++
      "👤 User: <b>" ++ user ++ "</b>\n" ++
      "📦 Model: <b>" ++ model_id ++ "</b>\n" ++
      "📅 Last Modified: " ++ pyOptStr info.last_modified ++ "\n" ++
      "🔗 <a href='" ++ modelUrl model_id ++ "'>View on Hugging Face</a>"
  | .updated_last_modified user model_id _ _ info =>
      "🔄 <b>Model Updated!</b>" ++ "\n\n" ++
      "👤 User: <b>" ++ user ++ "</b>\n" ++
      "📦 Model: <b>" ++ model_id ++ "</b>\n" ++
      "📅 Last Modified: " ++ pyOptStr info.last_modified ++ "\n" ++
      "🔗 <a href='" ++ modelUrl model_id ++ "'>View on Hugging Face</a>"

/-- "The formatted text `m` mentions the value `v`": `v` occurs contiguously
inside `m`. -/
def strMentions (m v : String) : Prop :=
  v.data <:+: m.data

instance (m v : String) : Decidable (strMentions m v) := by
  unfold strMentions; infer_instance

/-! ## Scan cycle orchestrator -/

/-- Observable actions of one `check_all_users` cycle (source lines
286–312): per-account checks, the single state save, each notification
hand-off, and the rate-limiting pause after it. -/
inductive Act where
  | checkUser (username : String)
  | saveState
  | dispatch (message : String)
  | pause
deriving DecidableEq, Repr

/-- The per-account loop of `check_all_users` (source lines 291–296):
process accounts in configuration order, threading the state, accumulating
each account's updates in order. -/
def checkUsersLoop (fetch : String → Except Unit (List RawModel))
    (detail : String → Option RawModel) (now : String) :
    List String → TrackerState → List Update × TrackerState × List Act
  | [], st => ([], st, [])
  | u :: rest, st =>
      let r := checkUserUpdates u st (fetch u) detail now
      let q := checkUsersLoop fetch detail now rest r.2
      (r.1 ++ q.1, q.2.1, Act.checkUser u :: q.2.2)

/-- The notification loop of `check_all_users` (source lines 304–308):
format and dispatch each update in order, sleeping one time unit after
each send. -/
def dispatchLoop : List Update → List Act
  | [] => []
  | up :: rest =>
      Act.dispatch (formatUpdateMessage up) :: Act.pause :: dispatchLoop rest

/-- `check_all_users` (source lines 286–312): check every configured
account, save the state once, then dispatch all collected updates.
Returns the updates, the final state, and the action trace. -/
def checkAllUsers (fetch : String → Except Unit (List RawModel))
    (detail : String → Option RawModel) (now : String)
    (hf_users : List String) (state : TrackerState) :
    List Update × TrackerState × List Act :=
  match checkUsersLoop fetch detail now hf_users state with
  | (all_updates, st', tr) =>
      (all_updates, st', tr ++ Act.saveState :: dispatchLoop all_updates)

/-! ## Scheduler -/

/-- What one invocation of `check_all_users` does when the scheduler runs
it: returns normally, raises an exception, or is hit by the external
interrupt. -/
inductive CycleResult where
  | ok
  | fail
  | interrupt
deriving DecidableEq, Repr

/-- Observable events of `run_continuous` (source lines 314–332). -/
inductive Ev where
  | runCycle
  | sleep (seconds : Nat)
  | logError
  | logStop
  | uncaught
deriving DecidableEq, Repr

/-- The fixed cool-down of the loop's error handler:
`time.sleep(60)` (source line 332). -/
def cooldownSeconds : Nat := 60

/-- The `while True` loop of `run_continuous` (source lines 322–332): each
iteration sleeps for the configured interval and runs a cycle inside
`try`; an exception is logged and followed by the fixed cool-down sleep,
a keyboard interrupt is logged and breaks the loop.  The script list
doubles as fuel; an exhausted script truncates the (infinite) trace. -/
def loopRun (interval : Nat) : List CycleResult → List Ev
  | [] => []
  | .ok :: rest => Ev.sleep interval :: Ev.runCycle :: loopRun interval rest
  | .fail :: rest =>
      Ev.sleep interval :: Ev.runCycle :: Ev.logError ::
        Ev.sleep cooldownSeconds :: loopRun interval rest
  | .interrupt :: _ => [Ev.logStop]

/-- `run_continuous` (source lines 314–332): the initial
`self.check_all_users()` (line 319) runs OUTSIDE the try/except, so an
exception (or interrupt) there escapes uncaught; afterwards the guarded
loop runs. -/
def runContinuous (interval : Nat) : List CycleResult → List Ev
  | [] => []
  | .ok :: rest => Ev.runCycle :: loopRun interval rest
  | .fail :: _ => [Ev.runCycle, Ev.uncaught]
  | .interrupt :: _ => [Ev.runCycle, Ev.uncaught]

/-! ## Helper lemmas -/

/-- De-duplication is the identity on a listing whose ids are already
distinct. -/
theorem uniqueIds_of_nodup : ∀ {l : List String}, l.Nodup → uniqueIds l = l
  | [], _ => rfl
  | i :: rest, h => by
      rw [List.nodup_cons] at h
      unfold uniqueIds
      rw [uniqueIds_of_nodup h.2]
      have : rest.filter (fun j => decide (j ≠ i)) = rest := by
        apply List.filter_eq_self.mpr
        intro a ha
        simp only [decide_eq_true_eq]
        rintro rfl
        exact h.1 ha
      rw [this]

/-- Association-list lookup finds a member when keys are distinct. -/
theorem alGet?_eq_some_of_mem {β : Type} :
    ∀ {d : List (String × β)} {k : String} {v : β},
      (d.map Prod.fst).Nodup → (k, v) ∈ d → alGet? d k = some v
  | [], _, _, _, h => by cases h
  | (k', v') :: rest, k, v, hnd, hmem => by
      rw [List.map_cons, List.nodup_cons] at hnd
      rcases List.mem_cons.mp hmem with heq | htail
      · cases heq
        simp [alGet?]
      · have hne : k' ≠ k := by
          rintro rfl
          exact hnd.1 (List.mem_map.mpr ⟨(k', v), htail, rfl⟩)
        unfold alGet?
        rw [if_neg hne]
        exact alGet?_eq_some_of_mem hnd.2 htail

/-- `dict.get(k, default)` on a member, distinct keys. -/
theorem alGetD_eq_of_mem {β : Type} {d : List (String × β)} {k : String} {v : β}
    (hnd : (d.map Prod.fst).Nodup) (hmem : (k, v) ∈ d) (dflt : β) :
    alGetD d k dflt = v := by
  unfold alGetD
  rw [alGet?_eq_some_of_mem hnd hmem]
  rfl

/-- Every event produced by the common-id comparison carries that id. -/
theorem mem_compareRecords_modelId {u i : String} {a b : ModelRecord} {e : Update}
    (h : e ∈ compareRecords u i a b) : e.modelId = i := by
  unfold compareRecords at h
  split at h
  · rw [List.mem_singleton] at h; subst h; rfl
  · split at h
    · rw [List.mem_singleton] at h; subst h; rfl
    · cases h

/-- Every event produced by the common-id comparison is a `model_updated`
dict, never a `new_model` one. -/
theorem mem_compareRecords_isUpdated {u i : String} {a b : ModelRecord} {e : Update}
    (h : e ∈ compareRecords u i a b) : e.isUpdated = true ∧ e.isNew = false := by
  unfold compareRecords at h
  split at h
  · rw [List.mem_singleton] at h; subst h; exact ⟨rfl, rfl⟩
  · split at h
    · rw [List.mem_singleton] at h; subst h; exact ⟨rfl, rfl⟩
    · cases h

/-- Filtering a concatenation of per-key blocks down to one key keeps
exactly that key's block, provided the keys are distinct. -/
theorem filter_flatMap_single {α β : Type} {l : List α} {x : α}
    (g : α → List β) (p : β → Bool)
    (hnd : l.Nodup) (hx : x ∈ l)
    (hkeep : ∀ e ∈ g x, p e = true)
    (hdrop : ∀ y ∈ l, y ≠ x → ∀ e ∈ g y, p e = false) :
    (l.flatMap g).filter p = g x := by
  induction l with
  | nil => cases hx
  | cons a t ih =>
      rw [List.nodup_cons] at hnd
      rw [List.flatMap_cons, List.filter_append]
      rcases List.mem_cons.mp hx with rfl | hxt
      · have h1 : (g x).filter p = g x := List.filter_eq_self.mpr hkeep
        have h2 : (t.flatMap g).filter p = [] := by
          apply List.filter_eq_nil_iff.mpr
          intro e he
          rw [List.mem_flatMap] at he
          rcases he with ⟨y, hy, hey⟩
          have hne : y ≠ x := fun h => hnd.1 (h ▸ hy)
          simp [hdrop y (List.mem_cons_of_mem _ hy) hne e hey]
        rw [h1, h2, List.append_nil]
      · have ha : a ≠ x := fun h => hnd.1 (h ▸ hxt)
        have h1 : (g a).filter p = [] := by
          apply List.filter_eq_nil_iff.mpr
          intro e he
          simp [hdrop a (List.mem_cons_self a t) ha e he]
        rw [h1, List.nil_append]
        exact ih hnd.2 hxt (fun y hy hne => hdrop y (List.mem_cons_of_mem _ hy) hne)

/-- Restricting the detector output to one id common to both snapshots
yields exactly the comparison of that id's two records. -/
theorem detectChanges_filter_common {u id : String} {p c : ModelDict}
    {rc rp : ModelRecord}
    (hc : (c.map Prod.fst).Nodup) (hp : (p.map Prod.fst).Nodup)
    (hmc : (id, rc) ∈ c) (hmp : (id, rp) ∈ p) :
    (detectChanges u p c).filter (fun e => decide (e.modelId = id)) =
      compareRecords u id rc rp := by
  have hidc : id ∈ c.map Prod.fst := List.mem_map.mpr ⟨(id, rc), hmc, rfl⟩
  have hidp : id ∈ p.map Prod.fst := List.mem_map.mpr ⟨(id, rp), hmp, rfl⟩
  have huniq : uniqueIds (c.map Prod.fst) = c.map Prod.fst := uniqueIds_of_nodup hc
  rw [detectChanges, List.filter_append]
  have hnew : (newModelEvents u p c).filter (fun e => decide (e.modelId = id)) = [] := by
    apply List.filter_eq_nil_iff.mpr
    intro e he
    rw [newModelEvents, List.mem_map] at he
    rcases he with ⟨i, hi, rfl⟩
    rw [List.mem_filter] at hi
    have : i ∉ p.map Prod.fst := by
      have := hi.2
      simpa using this
    simp only [Update.modelId, decide_eq_true_eq]
    rintro rfl
    exact this hidp
  have hupd : (updatedEvents u p c).filter (fun e => decide (e.modelId = id)) =
      compareRecords u id rc rp := by
    rw [updatedEvents]
    have hmemf : id ∈ (uniqueIds (c.map Prod.fst)).filter
        (fun i => decide (i ∈ p.map Prod.fst)) := by
      rw [huniq, List.mem_filter]
      exact ⟨hidc, by simpa using hidp⟩
    have hndf : ((uniqueIds (c.map Prod.fst)).filter
        (fun i => decide (i ∈ p.map Prod.fst))).Nodup := by
      rw [huniq]; exact hc.filter _
    have := filter_flatMap_single
      (fun i => compareRecords u i (alGetD c i emptyRecord) (alGetD p i emptyRecord))
      (fun e => decide (e.modelId = id)) hndf hmemf
      (fun e he => by
        simp only [decide_eq_true_eq]
        exact mem_compareRecords_modelId he)
      (fun y hy hne e he => by
        simp only [decide_eq_false_iff_not, decide_eq_true_eq]
        rw [mem_compareRecords_modelId he]
        exact hne)
    rw [this]
    simp only [alGetD_eq_of_mem hc hmc emptyRecord, alGetD_eq_of_mem hp hmp emptyRecord]
  rw [hnew, hupd, List.nil_append]

/-! ## Claim C5 -/

/-- C5: for all previous snapshot `p` and current snapshot `c` whose
artifact-id sets are disjoint, the change detector applied to `(p, c)`
yields exactly `|c|` new-artifact events and zero updated-artifact
events. -/
theorem c5_disjoint_snapshots_all_new (u : String) (p c : ModelDict)
    (hc : (c.map Prod.fst).Nodup)
    (hdisj : ∀ i ∈ c.map Prod.fst, i ∉ p.map Prod.fst) :
    ((detectChanges u p c).filter Update.isNew).length = c.length ∧
    (detectChanges u p c).filter Update.isUpdated = [] := by
  have huniq := uniqueIds_of_nodup hc
  have hnewids : (c.map Prod.fst).filter
      (fun i => decide (i ∉ p.map Prod.fst)) = c.map Prod.fst := by
    apply List.filter_eq_self.mpr
    intro a ha
    simpa using hdisj a ha
  have hexist : (c.map Prod.fst).filter
      (fun i => decide (i ∈ p.map Prod.fst)) = [] := by
    apply List.filter_eq_nil_iff.mpr
    intro a ha
    simpa using hdisj a ha
  have hupd : updatedEvents u p c = [] := by
    rw [updatedEvents, huniq, hexist]
    rfl
  have hnew : newModelEvents u p c =
      (c.map Prod.fst).map
        (fun i => Update.new_model u i (alGetD c i emptyRecord)) := by
    rw [newModelEvents, huniq, hnewids]
  constructor
  · rw [detectChanges, hupd, List.append_nil, hnew]
    have : ((c.map Prod.fst).map
        (fun i => Update.new_model u i (alGetD c i emptyRecord))).filter
          Update.isNew =
        (c.map Prod.fst).map
          (fun i => Update.new_model u i (alGetD c i emptyRecord)) := by
      apply List.filter_eq_self.mpr
      intro e he
      rw [List.mem_map] at he
      rcases he with ⟨i, _, rfl⟩
      rfl
    rw [this, List.length_map, List.length_map]
  · rw [detectChanges, hupd, List.append_nil, hnew]
    apply List.filter_eq_nil_iff.mpr
    intro e he
    rw [List.mem_map] at he
    rcases he with ⟨i, _, rfl⟩
    simp [Update.isUpdated]

/-- C5 witness: a concrete disjoint pair — previous holds `acme/old`,
current holds two fresh ids. -/
theorem c5_disjoint_snapshots_all_new_witness :
    ((detectChanges "acme"
        [("acme/old", emptyRecord)]
        [("acme/a", emptyRecord), ("acme/b", emptyRecord)]).filter
      Update.isNew).length = 2 ∧
    (detectChanges "acme"
        [("acme/old", emptyRecord)]
        [("acme/a", emptyRecord), ("acme/b", emptyRecord)]).filter
      Update.isUpdated = [] :=
  c5_disjoint_snapshots_all_new "acme"
    [("acme/old", emptyRecord)]
    [("acme/a", emptyRecord), ("acme/b", emptyRecord)]
    (by decide) (by decide)

/-! ## Claim C3 -/

/-- C3: the change detector is a pure function of the
`(previous, current)` pair — two runs on equal pairs yield identical event
sequences — and its new-artifact events come in a deterministic order:
exactly `newModelEvents`, the first-occurrence order of the current
listing's ids restricted to ids absent from the previous snapshot. -/
theorem c3_detector_deterministic (u : String) (p c p' c' : ModelDict)
    (hp : p = p') (hc : c = c') :
    detectChanges u p c = detectChanges u p' c' ∧
    (detectChanges u p c).filter Update.isNew = newModelEvents u p c := by
  subst hp
  subst hc
  refine ⟨rfl, ?_⟩
  rw [detectChanges, List.filter_append]
  have h1 : (newModelEvents u p c).filter Update.isNew = newModelEvents u p c := by
    apply List.filter_eq_self.mpr
    intro e he
    rw [newModelEvents, List.mem_map] at he
    rcases he with ⟨i, _, rfl⟩
    rfl
  have h2 : (updatedEvents u p c).filter Update.isNew = [] := by
    apply List.filter_eq_nil_iff.mpr
    intro e he
    rw [updatedEvents, List.mem_flatMap] at he
    rcases he with ⟨i, _, hei⟩
    simp [(mem_compareRecords_isUpdated hei).2]
  rw [h1, h2, List.append_nil]

/-- C3 witness: the detector run twice on a concrete pair. -/
theorem c3_detector_deterministic_witness :
    detectChanges "acme" [] [("acme/a", emptyRecord)] =
      detectChanges "acme" [] [("acme/a", emptyRecord)] ∧
    (detectChanges "acme" [] [("acme/a", emptyRecord)]).filter Update.isNew =
      newModelEvents "acme" [] [("acme/a", emptyRecord)] :=
  c3_detector_deterministic "acme" [] [("acme/a", emptyRecord)] [] [("acme/a", emptyRecord)]
    rfl rfl

/-! ## Claim C2 -/

/-- C2: for an artifact id present in both snapshots, when the content
hash is present (a non-empty SHA string) on both sides and differs, and
`last_modified` also differs, the detector emits exactly one update event
for that id, and it is the SHA-change event carrying the old and new hash —
never the `last_modified` one. -/
theorem c2_hash_priority_over_last_modified (u id cs ps : String)
    (p c : ModelDict) (rc rp : ModelRecord)
    (hc : (c.map Prod.fst).Nodup) (hp : (p.map Prod.fst).Nodup)
    (hmc : (id, rc) ∈ c) (hmp : (id, rp) ∈ p)
    (hcs : rc.sha = some cs) (hps : rp.sha = some ps)
    (hcs0 : cs ≠ "") (hps0 : ps ≠ "") (hne : cs ≠ ps)
    (_hlm : rc.last_modified ≠ rp.last_modified) :
    (detectChanges u p c).filter (fun e => decide (e.modelId = id)) =
      [Update.updated_sha u id (some ps) (some cs) rc] := by
  rw [detectChanges_filter_common hc hp hmc hmp]
  have hguard : truthy rc.sha ∧ truthy rp.sha ∧ rc.sha ≠ rp.sha := by
    refine ⟨?_, ?_, ?_⟩
    · rw [hcs]; simpa [truthy] using hcs0
    · rw [hps]; simpa [truthy] using hps0
    · rw [hcs, hps]; simpa using hne
  rw [compareRecords, if_pos hguard, hcs, hps]

/-- A previous-snapshot record with SHA `abc123`, used in witnesses. -/
def wPrevRec : ModelRecord :=
  { id := "acme/model-a", author := some "acme", created_at := none
  , updated_at := none, last_modified := some "2024-01-01T00:00:00"
  , sha := some "abc123", tags := [], downloads := 0 }

/-- A current-snapshot record with SHA `def456` and a later
`last_modified`, used in witnesses. -/
def wCurrRec : ModelRecord :=
  { id := "acme/model-a", author := some "acme", created_at := none
  , updated_at := none, last_modified := some "2024-02-01T00:00:00"
  , sha := some "def456", tags := [], downloads := 0 }

/-- A current-snapshot record whose SHA is the empty string, used in
witnesses. -/
def wCurrRecEmptySha : ModelRecord :=
  { id := "acme/model-a", author := some "acme", created_at := none
  , updated_at := none, last_modified := some "2024-02-01T00:00:00"
  , sha := some "", tags := [], downloads := 0 }

/-- C2 witness: `abc123 → def456` with both sides' `last_modified`
differing as well. -/
theorem c2_hash_priority_over_last_modified_witness :
    (detectChanges "acme"
        [("acme/model-a", wPrevRec)]
        [("acme/model-a", wCurrRec)]).filter
      (fun e => decide (e.modelId = "acme/model-a")) =
      [Update.updated_sha "acme" "acme/model-a" (some "abc123") (some "def456")
        wCurrRec] :=
  c2_hash_priority_over_last_modified "acme" "acme/model-a" "def456" "abc123"
    [("acme/model-a", wPrevRec)] [("acme/model-a", wCurrRec)]
    wCurrRec wPrevRec
    (by decide) (by decide) (by decide) (by decide)
    rfl rfl (by decide) (by decide) (by decide) (by decide)

/-! ## Claim C10 -/

/-- C10: for an artifact id present in both snapshots, when either side's
content hash is the empty string, the SHA branch never fires (the empty
string behaves like an absent hash under Python truthiness), so an update
event is emitted for that id exactly when the two `last_modified` values
differ, and it is then the `last_modified`-change event. -/
theorem c10_empty_hash_like_absent (u id : String) (p c : ModelDict)
    (rc rp : ModelRecord)
    (hc : (c.map Prod.fst).Nodup) (hp : (p.map Prod.fst).Nodup)
    (hmc : (id, rc) ∈ c) (hmp : (id, rp) ∈ p)
    (hsha : rc.sha = some "" ∨ rp.sha = some "") :
    (detectChanges u p c).filter (fun e => decide (e.modelId = id)) =
      if rc.last_modified ≠ rp.last_modified then
        [Update.updated_last_modified u id rp.last_modified rc.last_modified rc]
      else [] := by
  rw [detectChanges_filter_common hc hp hmc hmp]
  rw [compareRecords, if_neg]
  rintro ⟨h1, h2, _⟩
  rcases hsha with h | h
  · rw [h] at h1; simp [truthy] at h1
  · rw [h] at h2; simp [truthy] at h2

/-- C10 witness: the current record carries an empty-string SHA against a
previous real SHA, and only `last_modified` drives the event. -/
theorem c10_empty_hash_like_absent_witness :
    (detectChanges "acme"
        [("acme/model-a", wPrevRec)]
        [("acme/model-a", wCurrRecEmptySha)]).filter
      (fun e => decide (e.modelId = "acme/model-a")) =
      [Update.updated_last_modified "acme" "acme/model-a"
        (some "2024-01-01T00:00:00") (some "2024-02-01T00:00:00")
        wCurrRecEmptySha] := by
  have := c10_empty_hash_like_absent "acme" "acme/model-a"
    [("acme/model-a", wPrevRec)] [("acme/model-a", wCurrRecEmptySha)]
    wCurrRecEmptySha wPrevRec
    (by decide) (by decide) (by decide) (by decide) (Or.inl rfl)
  rw [this]
  decide

/-! ## Claim C1 -/

/-- A Python dict assignment is observable under its own key. -/
theorem alGet?_stateSet_self : ∀ (st : TrackerState) (u : String) (v : UserState),
    alGet? (stateSet st u v) u = some v
  | [], u, v => by simp [stateSet, alGet?]
  | (k, w) :: rest, u, v => by
      unfold stateSet
      by_cases h : k = u
      · rw [if_pos h]
        simp [alGet?]
      · rw [if_neg h]
        unfold alGet?
        rw [if_neg h]
        exact alGet?_stateSet_self rest u v

/-- A concrete stored state: account `acme` with a three-artifact
snapshot. -/
def c1State : TrackerState :=
  [("acme",
    { models := [("acme/a", emptyRecord), ("acme/b", emptyRecord),
                 ("acme/c", emptyRecord)]
    , last_checked := "2024-01-01T00:00:00", model_count := 3 })]

/-- C1 counterexample: with a previous three-artifact snapshot stored for
`acme`, a failed listing fetch makes the cycle emit zero events — but the
stored snapshot after the cycle is NOT identical to the snapshot before:
it has been overwritten with an empty one. -/
theorem c1_counterexample :
    (checkUserUpdates "acme" c1State (Except.error ())
        (fun _ => none) "2024-03-01T00:00:00").1 = [] ∧
    alGet? (checkUserUpdates "acme" c1State (Except.error ())
        (fun _ => none) "2024-03-01T00:00:00").2 "acme" ≠
      alGet? c1State "acme" := by
  decide

/-- C1 amended: when fetching an account's listing fails, the cycle emits
zero change events for that account, but the account's stored snapshot is
replaced by an empty snapshot (zero models) rather than preserved — the
failure is treated exactly like the account having no artifacts. -/
theorem c1_amended_fetch_failure_resets_snapshot (username now : String)
    (state : TrackerState) (detail : String → Option RawModel) :
    (checkUserUpdates username state (Except.error ()) detail now).1 = [] ∧
    alGet? (checkUserUpdates username state (Except.error ()) detail now).2
        username =
      some { models := [], last_checked := now, model_count := 0 } := by
  constructor
  · rfl
  · exact alGet?_stateSet_self state username _

/-! ## Claim C6 -/

/-- C6: `_load_state` fails soft — a missing state file yields the empty
mapping, and an unparsable state file yields the empty mapping; the
function is total, so no exception reaches the caller. -/
theorem c6_load_state_fails_soft (toks : List Tok)
    (hbad : parseState toks = none) :
    loadState none = [] ∧ loadState (some toks) = [] := by
  refine ⟨rfl, ?_⟩
  simp [loadState, hbad]

/-- C6 witness: a file whose content starts with a stray closing token is
corrupt, and `loadState` returns the empty mapping on it. -/
theorem c6_load_state_fails_soft_witness :
    loadState none = [] ∧ loadState (some [Tok.closeBrace]) = [] :=
  c6_load_state_fails_soft [Tok.closeBrace] (by decide)

/-! ## Claim C7 -/

/-- Parsing inverts serialization of the entry section. -/
theorem parseEntries_serial : ∀ st : TrackerState,
    parseEntries (st.map (fun p => Tok.entry p.1 p.2) ++ [Tok.closeBrace]) =
      some st
  | [] => rfl
  | (a, u) :: rest => by
      simp only [List.map_cons, List.cons_append]
      rw [parseEntries, parseEntries_serial rest]
      rfl

/-- Parsing inverts serialization: a completed save loads back exactly. -/
theorem parseState_serializeState (st : TrackerState) :
    parseState (serializeState st) = some st := by
  rw [serializeState, parseState]
  exact parseEntries_serial st

/-- An entry run with no closing token never parses. -/
theorem parseEntries_no_close : ∀ l : TrackerState,
    parseEntries (l.map (fun p => Tok.entry p.1 p.2)) = none
  | [] => rfl
  | (a, u) :: rest => by
      simp only [List.map_cons]
      rw [parseEntries, parseEntries_no_close rest]
      rfl

/-- A strict prefix of a serialized state never parses. -/
theorem parseState_take_none (st : TrackerState) (k : Nat)
    (hk : k < (serializeState st).length) :
    parseState ((serializeState st).take k) = none := by
  cases k with
  | zero => rfl
  | succ j =>
      rw [serializeState] at hk ⊢
      rw [List.take_succ_cons, parseState]
      rw [List.length_cons, List.length_append, List.length_map,
        List.length_singleton] at hk
      have hj : j ≤ st.length := by omega
      rw [List.take_append_of_le_length (by simpa using hj)]
      rw [← List.map_take]
      exact parseEntries_no_close (st.take j)

/-- Previously saved state used in the C7 counterexample. -/
def c7Old : TrackerState :=
  [("acme", { models := [("acme/a", emptyRecord)]
            , last_checked := "2024-01-01T00:00:00", model_count := 1 })]

/-- New state being saved in the C7 counterexample. -/
def c7New : TrackerState :=
  [("acme", { models := [("acme/a", emptyRecord), ("acme/b", emptyRecord)]
            , last_checked := "2024-02-01T00:00:00", model_count := 2 })]

/-- C7 counterexample: `_save_state` writes the file in place (open mode
`'w'` truncates, then the content is written sequentially), so a save of
`c7New` over `c7Old` interrupted after one token leaves a file that a
subsequent `loadState` reads as neither the complete new mapping nor the
complete old one. -/
theorem c7_counterexample :
    loadState (some (fileAfterInterruptedSave c7New 1)) ≠ c7New ∧
    loadState (some (fileAfterInterruptedSave c7New 1)) ≠ c7Old := by
  decide

/-- C7 amended: a save interrupted mid-write leaves a strict prefix of the
new serialization, which never parses, so a subsequent load returns the
empty mapping (fail-soft) — a partial mapping is never observed, but
neither is the old or (in general) the new one; only a completed save
loads back the full new mapping. -/
theorem c7_amended_interrupted_save_loads_empty (newState : TrackerState)
    (k : Nat) (hk : k < (serializeState newState).length) :
    loadState (some (fileAfterInterruptedSave newState k)) = [] ∧
    loadState (some (serializeState newState)) = newState := by
  constructor
  · simp [loadState, fileAfterInterruptedSave, parseState_take_none newState k hk]
  · simp [loadState, parseState_serializeState]

/-- C7 amended witness: the interrupted save of `c7New` after one token
loads as the empty mapping; the completed save loads back `c7New`. -/
theorem c7_amended_interrupted_save_loads_empty_witness :
    loadState (some (fileAfterInterruptedSave c7New 1)) = [] ∧
    loadState (some (serializeState c7New)) = c7New :=
  c7_amended_interrupted_save_loads_empty c7New 1 (by decide)

/-! ## Claim C4 -/

/-- Once the `while True` loop is entered, nothing escapes it uncaught. -/
theorem uncaught_not_mem_loopRun (interval : Nat) :
    ∀ script : List CycleResult, Ev.uncaught ∉ loopRun interval script := by
  intro script
  induction script with
  | nil => simp [loopRun]
  | cons c rest ih =>
      cases c <;> simp [loopRun] <;> simp [ih]

/-- Every cycle error raised inside the loop (before any interrupt) is
logged exactly once. -/
theorem loopRun_count_logError (interval : Nat) :
    ∀ script : List CycleResult,
      (loopRun interval script).count Ev.logError =
        (script.takeWhile
          (fun c => decide (c ≠ CycleResult.interrupt))).count CycleResult.fail := by
  intro script
  induction script with
  | nil => rfl
  | cons c rest ih =>
      cases c <;>
        simp [loopRun, List.takeWhile_cons, List.count_cons, ih]

/-- C4 counterexample: the initial immediate cycle run of `run_continuous`
(source line 319) sits OUTSIDE the loop's `try`/`except`; when it raises,
the error is not logged, no cool-down follows, and the loop never starts —
the exception escapes and terminates `run_continuous`. -/
theorem c4_counterexample :
    runContinuous 3600 [CycleResult.fail, CycleResult.ok] =
      [Ev.runCycle, Ev.uncaught] ∧
    Ev.logError ∉ runContinuous 3600 [CycleResult.fail, CycleResult.ok] ∧
    Ev.sleep cooldownSeconds ∉
      runContinuous 3600 [CycleResult.fail, CycleResult.ok] := by
  decide

/-- C4 amended: once the continuous loop is entered (the initial cycle
returned normally), no error escapes uncaught; an unhandled error inside a
loop cycle is logged and followed by the fixed 60-second cool-down sleep —
a constant independent of the configured interval — after which the loop
continues with the next iteration; errors before an interrupt are each
logged exactly once.  An unhandled error in the initial immediate cycle
run, however, terminates `run_continuous` uncaught. -/
theorem c4_amended_loop_error_isolation (interval : Nat)
    (rest script : List CycleResult) :
    Ev.uncaught ∉ runContinuous interval (CycleResult.ok :: rest) ∧
    loopRun interval (CycleResult.fail :: rest) =
      Ev.sleep interval :: Ev.runCycle :: Ev.logError ::
        Ev.sleep cooldownSeconds :: loopRun interval rest ∧
    (loopRun interval script).count Ev.logError =
      (script.takeWhile
        (fun c => decide (c ≠ CycleResult.interrupt))).count CycleResult.fail ∧
    runContinuous interval (CycleResult.fail :: rest) =
      [Ev.runCycle, Ev.uncaught] := by
  refine ⟨?_, rfl, loopRun_count_logError interval script, rfl⟩
  simp only [runContinuous, List.mem_cons]
  rintro (h | h)
  · cases h
  · exact uncaught_not_mem_loopRun interval rest h

/-! ## Claim C8 -/

/-- The per-account loop visits the configured accounts in order, one
check action each, regardless of the threaded state. -/
theorem checkUsersLoop_trace (fetch : String → Except Unit (List RawModel))
    (detail : String → Option RawModel) (now : String) :
    ∀ (users : List String) (st : TrackerState),
      (checkUsersLoop fetch detail now users st).2.2 = users.map Act.checkUser
  | [], _ => rfl
  | u :: rest, st => by
      simp only [checkUsersLoop, List.map_cons]
      rw [checkUsersLoop_trace fetch detail now rest]

/-- The notification loop hands each collected event, in order, to the
formatter/dispatcher, with the pacing pause after each delivery. -/
theorem dispatchLoop_eq_flatMap : ∀ ups : List Update,
    dispatchLoop ups =
      ups.flatMap (fun up => [Act.dispatch (formatUpdateMessage up), Act.pause])
  | [] => rfl
  | up :: rest => by
      simp only [dispatchLoop, List.flatMap_cons]
      rw [dispatchLoop_eq_flatMap rest]
      rfl

/-- The notification loop never saves state. -/
theorem saveState_not_mem_dispatchLoop : ∀ ups : List Update,
    Act.saveState ∉ dispatchLoop ups
  | [] => by simp [dispatchLoop]
  | up :: rest => by
      simp only [dispatchLoop, List.mem_cons]
      rintro (h | h | h) <;> first
        | cases h
        | exact saveState_not_mem_dispatchLoop rest h

/-- C8: a cycle's action trace is all per-account checks in configuration
order, then exactly one state save, then the dispatch of each collected
event in stable per-account order; the save count over the whole trace is
one, so the state is persisted exactly once, after all accounts and before
any dispatch. -/
theorem c8_persist_once_then_dispatch
    (fetch : String → Except Unit (List RawModel))
    (detail : String → Option RawModel) (now : String)
    (hf_users : List String) (state : TrackerState) :
    (checkAllUsers fetch detail now hf_users state).2.2 =
      hf_users.map Act.checkUser ++ Act.saveState ::
        dispatchLoop (checkAllUsers fetch detail now hf_users state).1 ∧
    ((checkAllUsers fetch detail now hf_users state).2.2).count Act.saveState
      = 1 ∧
    dispatchLoop (checkAllUsers fetch detail now hf_users state).1 =
      (checkAllUsers fetch detail now hf_users state).1.flatMap
        (fun up => [Act.dispatch (formatUpdateMessage up), Act.pause]) := by
  have htr : (checkAllUsers fetch detail now hf_users state).2.2 =
      hf_users.map Act.checkUser ++ Act.saveState ::
        dispatchLoop (checkAllUsers fetch detail now hf_users state).1 := by
    show (checkUsersLoop fetch detail now hf_users state).2.2 ++
        Act.saveState ::
          dispatchLoop (checkUsersLoop fetch detail now hf_users state).1 = _
    rw [checkUsersLoop_trace fetch detail now hf_users state]
    rfl
  refine ⟨htr, ?_, dispatchLoop_eq_flatMap _⟩
  rw [htr, List.count_append, List.count_cons]
  have h1 : (hf_users.map Act.checkUser).count Act.saveState = 0 := by
    apply List.count_eq_zero.mpr
    intro hmem
    rcases List.mem_map.mp hmem with ⟨u, _, h⟩
    cases h
  have h2 : (dispatchLoop
      (checkAllUsers fetch detail now hf_users state).1).count Act.saveState = 0 :=
    List.count_eq_zero.mpr (saveState_not_mem_dispatchLoop _)
  rw [h1, h2]
  rfl

/-! ## Claim C9 -/

/-- A token list sits at the front of its extension by a tail. -/
theorem segHere {α : Type} (l b : List α) : l <:+: l ++ b :=
  ⟨[], b, by simp⟩

/-- A contiguous occurrence survives prepending more text. -/
theorem segSkip {α : Type} (a : List α) {l v : List α} (h : v <:+: l) :
    v <:+: a ++ l := by
  rcases h with ⟨s, t, hst⟩
  exact ⟨a ++ s, t, by rw [← hst]; simp⟩

/-- The event kind marker the formatted text is required to carry. -/
def kindMarker : Update → String
  | .new_model _ _ _ => "🆕 <b>New Model Detected!</b>"
  | _ => "🔄 <b>Model Updated!</b>"

/-- A concrete SHA-change event used in the C9 counterexample. -/
def c9Event : Update :=
  Update.updated_sha "acme" "acme/model-a" (some "abc123") (some "def456")
    wCurrRec

set_option maxRecDepth 8000 in
set_option maxHeartbeats 1000000 in
/-- C9 counterexample: the message formatted for a SHA-change event
carrying old hash `abc123` and new hash `def456`, whose previous
`last_modified` was `2024-01-01T00:00:00`, mentions neither hash nor the
previous timestamp — it only mentions the current `last_modified` — so the
claimed "previous and current modification timestamp or hash" content is
absent on every reading. -/
theorem c9_counterexample :
    ¬ strMentions (formatUpdateMessage c9Event) "abc123" ∧
    ¬ strMentions (formatUpdateMessage c9Event) "def456" ∧
    ¬ strMentions (formatUpdateMessage c9Event) "2024-01-01T00:00:00" ∧
    strMentions (formatUpdateMessage c9Event) "2024-02-01T00:00:00" := by
  decide

/-- C9 amended: every formatted alert mentions the event kind marker, the
owner, the artifact id and the canonical link `<catalog-base-url>/<id>`;
a new-artifact alert additionally mentions the first-5-tags preview (or
the `"No tags"` placeholder) and the comma-grouped download count; an
updated-artifact alert additionally mentions the CURRENT modification
timestamp of its record (the previous value and the hashes are not part of
the message). -/
theorem c9_amended_message_fields (up : Update) :
    strMentions (formatUpdateMessage up) (kindMarker up) ∧
    strMentions (formatUpdateMessage up) up.user ∧
    strMentions (formatUpdateMessage up) up.modelId ∧
    strMentions (formatUpdateMessage up) (modelUrl up.modelId) ∧
    (match up with
     | .new_model _ _ info =>
         strMentions (formatUpdateMessage up) (tagsStr info.tags) ∧
         strMentions (formatUpdateMessage up) (commaFormat info.downloads)
     | .updated_sha _ _ _ _ info =>
         strMentions (formatUpdateMessage up) (pyOptStr info.last_modified)
     | .updated_last_modified _ _ _ _ info =>
         strMentions (formatUpdateMessage up) (pyOptStr info.last_modified)) := by
  cases up with
  | new_model user model_id info =>
      refine ⟨?_, ?_, ?_, ?_, ?_, ?_⟩ <;>
        · simp only [strMentions, formatUpdateMessage, kindMarker, Update.user,
            Update.modelId, String.data_append, List.append_assoc]
          repeat first
            | exact segHere _ _
            | apply segSkip
  | updated_sha user model_id ps cs info =>
      refine ⟨?_, ?_, ?_, ?_, ?_⟩ <;>
        · simp only [strMentions, formatUpdateMessage, kindMarker, Update.user,
            Update.modelId, String.data_append, List.append_assoc]
          repeat first
            | exact segHere _ _
            | apply segSkip
  | updated_last_modified user model_id pm cm info =>
      refine ⟨?_, ?_, ?_, ?_, ?_⟩ <;>
        · simp only [strMentions, formatUpdateMessage, kindMarker, Update.user,
            Update.modelId, String.data_append, List.append_assoc]
          repeat first
            | exact segHere _ _
            | apply segSkip

end HFTracker
